import Mathlib

/-!
The spop web plugin: the `/api` request handler and its completion callback.

A shallow embedding of `plugins/web.c` (with the declarations of
`src/commands.h` it relies on) and the properties of its dispatch logic.

Conventions of the embedding.

* A C string is the list of its characters before the terminating NUL.
* Pointers to libsoup objects (`SoupServer*`, `SoupMessage*`) and code
  addresses are opaque handles (`Nat`).
* Every call the code makes on an external collaborator (libsoup, `command_run`)
  is recorded, in program order, as a `Call`; a function of `web.c` returns the
  list of calls it made together with the heap of live completion contexts.
* Behaviour that C leaves undefined is a `Fault`.
* Logging (`g_debug`) and the release of the segment vector (`g_strfreev`) have
  no effect on any of this and are left out.
-/

namespace Spop

/-- A C string: its characters up to, and without, the terminating NUL. -/
abbrev CStr := List Char

/-! ## `src/commands.h` -/

/-- Constant `MAX_CMD_ARGS` (`#define MAX_CMD_ARGS 2`). -/
def MAX_CMD_ARGS : Nat := 2

/-- Argument kinds: `typedef enum { CA_NONE=0, CA_INT, CA_STR, CA_URI } command_arg;` -/
inductive command_arg where
  | CA_NONE
  | CA_INT
  | CA_STR
  | CA_URI
  deriving DecidableEq, Repr

/-- Descriptor:
`typedef struct { void* func; command_arg args[MAX_CMD_ARGS]; } command_descriptor;`
The operation handle `func` is a code address. -/
structure command_descriptor where
  func : Nat
  args : Mathlib.Vector command_arg MAX_CMD_ARGS
  deriving DecidableEq

/-- Modelled from the spec: the execution kind of a registry entry. The enum
declaration is not part of the sources at hand; `web.c` names `CT_FUNC` (runnable)
and `CT_IDLE` (no-op/ignored) and sends every other enumerator to its `default`
branch, so all further enumerators are kept apart by their integer value. -/
inductive command_type where
  | CT_FUNC
  | CT_IDLE
  | CT_OTHER (value : Nat)
  deriving DecidableEq, Repr

/-- Modelled from the spec: an entry of the registry table `commands_descriptors`,
with the three fields `web.c` reads: `name`, `type` and `desc`. The struct
declaration is not part of the sources at hand. The table itself is a parameter
of the handler: the list of its entries before the terminating entry whose
`name` is `NULL`. -/
structure command_full_descriptor where
  name : CStr
  type : command_type
  desc : command_descriptor
  deriving DecidableEq

/-! ## Library functions used by `web.c` -/

/-- Status `SOUP_STATUS_OK`. -/
def SOUP_STATUS_OK : Nat := 200
/-- Status `SOUP_STATUS_FORBIDDEN`. -/
def SOUP_STATUS_FORBIDDEN : Nat := 403
/-- Status `SOUP_STATUS_NOT_FOUND`. -/
def SOUP_STATUS_NOT_FOUND : Nat := 404
/-- Status `SOUP_STATUS_NOT_IMPLEMENTED`. -/
def SOUP_STATUS_NOT_IMPLEMENTED : Nat := 501

/-- Method `SOUP_METHOD_GET`: libsoup interns method names, so comparing the pointers
`msg->method` and `SOUP_METHOD_GET` is comparing the names. -/
def SOUP_METHOD_GET : CStr := "GET".toList

/-- Range of a `guint` (and of the conversion of an `int` to `guint`). -/
def GUINT_RANGE : Nat := 2 ^ 32

/-- Pieces of a non-empty string cut at every delimiter: one more piece than
there are delimiters, empty pieces included. -/
def split_pieces (delimiter : Char) : CStr → List CStr
  | [] => [[]]
  | c :: rest =>
    if c = delimiter then [] :: split_pieces delimiter rest
    else
      match split_pieces delimiter rest with
      | [] => [[c]]
      | piece :: pieces => (c :: piece) :: pieces

/-- GLib `g_strsplit (string, delimiter, -1)` for a one-character delimiter: the
string is split completely; "as a special case, the result of splitting the
empty string is an empty vector, not a vector containing a single string". -/
def g_strsplit (string : CStr) (delimiter : Char) : List CStr :=
  match string with
  | [] => []
  | _ :: _ => split_pieces delimiter string

/-- GLib `g_strv_length`: the number of strings of the vector, as a `guint`. -/
def g_strv_length (str_array : List CStr) : Nat :=
  str_array.length % GUINT_RANGE

/-- GLib `g_ascii_isxdigit`. -/
def g_ascii_isxdigit (c : Char) : Bool :=
  (48 ≤ c.toNat && c.toNat ≤ 57) || (65 ≤ c.toNat && c.toNat ≤ 70) ||
    (97 ≤ c.toNat && c.toNat ≤ 102)

/-- Macro of libsoup: `#define XDIGIT(c) ((c) <= '9' ? (c) - '0' : ((c) & 0x4F) - 'A' + 10)` -/
def XDIGIT (c : Char) : Nat :=
  if c.toNat ≤ 57 then c.toNat - 48 else (c.toNat &&& 0x4F) - 65 + 10

/-- Macro of libsoup: `#define HEXCHAR(s) ((XDIGIT (s[1]) << 4) + XDIGIT (s[2]))` -/
def HEXCHAR (s1 s2 : Char) : Nat :=
  (XDIGIT s1 <<< 4) + XDIGIT s2

/-- Function `uri_decoded_copy` of libsoup: one left-to-right pass that replaces every `%XX`
with two hexadecimal digits by the byte it denotes and copies everything else,
a `%` not followed by two hexadecimal digits included. -/
def uri_decoded_copy : CStr → List Char
  | [] => []
  | c :: s1 :: s2 :: rest =>
    if c = '%' && g_ascii_isxdigit s1 && g_ascii_isxdigit s2 then
      Char.ofNat (HEXCHAR s1 s2) :: uri_decoded_copy rest
    else c :: uri_decoded_copy (s1 :: s2 :: rest)
  | c :: rest => c :: uri_decoded_copy rest

/-- Function `soup_uri_decode` of libsoup: "fully %-decodes" its argument; it never fails.
The result is read as a C string, so it ends at the first NUL byte a `%00`
may have produced. -/
def soup_uri_decode (part : CStr) : CStr :=
  (uri_decoded_copy part).takeWhile (fun c => c ≠ Char.ofNat 0)

/-- C `strcmp`, up to the magnitude of a non-zero result. -/
def strcmp : CStr → CStr → Int
  | [], [] => 0
  | [], _ :: _ => -1
  | _ :: _, [] => 1
  | a :: s1, b :: s2 =>
    if a = b then strcmp s1 s2 else if a.toNat < b.toNat then -1 else 1

/-- C `strlen`. -/
def strlen (s : CStr) : Nat := s.length

/-- Pointer arithmetic `s + n` on a C string followed by a read through the
result: the rest of the string from offset `n`, defined as long as the offset
does not pass the terminating NUL. -/
def cstr_offset (s : CStr) (n : Nat) : Option CStr :=
  if n ≤ s.length then some (s.drop n) else none

/-- Conversion of a `guint` to `int` (two's complement). -/
def guint_to_int (n : Nat) : Int :=
  if n < 2 ^ 31 then (n : Int) else (n : Int) - (2 ^ 32 : Int)

/-! ## `plugins/web.c` -/

/-- Completion context:
`typedef struct { SoupServer* server; SoupMessage* msg; } web_command_context;` -/
structure web_command_context where
  server : Nat
  msg : Nat
  deriving DecidableEq, Repr

/-- Code addresses that can be passed as a `command_finalize_func`. -/
inductive command_finalize_func where
  | web_command_finalize
  | other_function (address : Nat)
  deriving DecidableEq, Repr

/-- The `SoupMemoryUse` argument of `soup_message_set_response`. -/
inductive SoupMemoryUse where
  | SOUP_MEMORY_STATIC
  | SOUP_MEMORY_TAKE
  | SOUP_MEMORY_COPY
  | SOUP_MEMORY_TEMPORARY
  deriving DecidableEq, Repr

/-- Calls made by `web.c` on its collaborators. -/
inductive Call where
  | soup_message_set_status (msg : Nat) (status_code : Nat)
  | soup_message_set_response (msg : Nat) (content_type : CStr)
      (resp_use : SoupMemoryUse) (resp_body : CStr) (resp_length : Nat)
  | soup_server_pause_message (server : Nat) (msg : Nat)
  | soup_server_unpause_message (server : Nat) (msg : Nat)
  | command_run (finalize : command_finalize_func) (finalize_data : Nat)
      (desc : command_descriptor) (argc : Int) (argv : List CStr)
  deriving DecidableEq

/-- Behaviour the C standard leaves undefined. -/
inductive Fault where
  | read_out_of_bounds
  | use_of_dead_pointer
  deriving DecidableEq, Repr

deriving instance DecidableEq for Except

/-- The live `web_command_context` blocks, by address. -/
abbrev Heap := List (Nat × web_command_context)

/-- Address returned by `g_new0`: non-`NULL` and different from every live block. -/
def g_new0 (heap : Heap) : Nat :=
  (heap.map Prod.fst).foldr max 0 + 1

/-- GLib `g_free` of a context block. -/
def g_free (heap : Heap) (p : Nat) : Heap :=
  heap.filter (fun cell => cell.1 ≠ p)

/-- The `while` loop of lines 88-90, started with `nb_args` iterations done:
`while ((nb_args < MAX_CMD_ARGS) && (args[nb_args] != CA_NONE)) nb_args += 1;`
`fuel` bounds the number of iterations still allowed. -/
def count_args_loop (args : Mathlib.Vector command_arg MAX_CMD_ARGS) : Nat → Nat → Nat
  | 0, nb_args => nb_args
  | fuel + 1, nb_args =>
    if h : nb_args < MAX_CMD_ARGS then
      if args.get ⟨nb_args, h⟩ ≠ command_arg.CA_NONE then
        count_args_loop args fuel (nb_args + 1)
      else nb_args
    else nb_args

/-- Value of `nb_args` after lines 88-90; the loop cannot run more than
`MAX_CMD_ARGS` times. -/
def nb_args (desc : command_descriptor) : Nat :=
  count_args_loop desc.args MAX_CMD_ARGS 0

/-- The test of line 91,
`(strcmp(name, cmd[0]) == 0) && (nb_args == cmd_len-1)`:
the `int` `nb_args` is converted to `guint` for the comparison and `cmd_len-1`
is computed in `guint`. -/
def entry_selected (d : command_full_descriptor) (cmd0 : CStr) (cmd_len : Nat) : Bool :=
  decide (strcmp d.name cmd0 = 0) &&
    decide (nb_args d.desc % GUINT_RANGE = (cmd_len + GUINT_RANGE - 1) % GUINT_RANGE)

/-- The lookup loop of lines 86-95 from table index `i` on: `some (i, entry)`
stands for `cmd_desc = &(commands_descriptors[i])`, `none` for `cmd_desc` still
`NULL` when the terminating entry is reached. -/
def lookup_loop (cmd0 : CStr) (cmd_len : Nat) :
    Nat → List command_full_descriptor → Option (Nat × command_full_descriptor)
  | _, [] => none
  | i, d :: rest =>
    if entry_selected d cmd0 cmd_len then some (i, d)
    else lookup_loop cmd0 cmd_len (i + 1) rest

/-- Lines 86-95: the lookup of `cmd[0]` with `cmd_len` segments in the table. -/
def lookup_command (commands_descriptors : List command_full_descriptor)
    (cmd0 : CStr) (cmd_len : Nat) : Option (Nat × command_full_descriptor) :=
  lookup_loop cmd0 cmd_len 0 commands_descriptors

/-- The decoding loop of lines 79-83: the first `n` strings of the vector are
replaced by their decoded form. -/
def decode_loop : Nat → List CStr → List CStr
  | 0, cmd => cmd
  | _ + 1, [] => []
  | n + 1, part :: rest => soup_uri_decode part :: decode_loop n rest

/-- Function `web_command_finalize` (lines 44-51), called with a pointer `ctx`. -/
def web_command_finalize (json_result : CStr) (ctx : Nat) (heap : Heap) :
    Except Fault (List Call × Heap) :=
  match heap.lookup ctx with
  | none => .error Fault.use_of_dead_pointer
  | some c =>
    .ok ([Call.soup_message_set_status c.msg SOUP_STATUS_OK,
          Call.soup_message_set_response c.msg "application/json".toList
            SoupMemoryUse.SOUP_MEMORY_COPY json_result (strlen json_result),
          Call.soup_server_unpause_message c.server c.msg],
         g_free heap ctx)

/-- Function `web_api_handler` (lines 54-125). `method` is `msg->method`; the arguments
`query`, `client` and `user_data` play no part. -/
def web_api_handler (commands_descriptors : List command_full_descriptor)
    (server msg : Nat) (method : CStr) (path : CStr) (heap : Heap) :
    Except Fault (List Call × Heap) :=
  if method ≠ SOUP_METHOD_GET then
    .ok ([Call.soup_message_set_status msg SOUP_STATUS_NOT_IMPLEMENTED], heap)
  else
    match cstr_offset path 5 with
    | none => .error Fault.read_out_of_bounds
    | some subpath =>
      let cmd := g_strsplit subpath '/'
      let cmd_len := g_strv_length cmd
      if cmd_len = 0 then
        .ok ([Call.soup_message_set_status msg SOUP_STATUS_NOT_FOUND], heap)
      else
        let cmd := decode_loop cmd_len cmd
        match lookup_command commands_descriptors (cmd.headD []) cmd_len with
        | none => .ok ([Call.soup_message_set_status msg SOUP_STATUS_NOT_FOUND], heap)
        | some (_, cmd_desc) =>
          match cmd_desc.type with
          | command_type.CT_FUNC =>
            let ctx := g_new0 heap
            .ok ([Call.soup_server_pause_message server msg,
                  Call.command_run command_finalize_func.web_command_finalize ctx
                    cmd_desc.desc (guint_to_int cmd_len) cmd],
                 (ctx, { server := server, msg := msg }) :: heap)
          | command_type.CT_IDLE => .ok ([], heap)
          | _ => .ok ([Call.soup_message_set_status msg SOUP_STATUS_FORBIDDEN], heap)

/-! ## The state of a message, as the recorded calls change it -/

/-- Status `SOUP_STATUS_NONE`: the status of a message no status was set on. -/
def SOUP_STATUS_NONE : Nat := 0

/-- The part of a `SoupMessage` (and of its server-side processing state) that the
calls of `web.c` act on: `status_code`, the response (content type and body) and
the paused flag of the exchange. -/
structure message_state where
  status_code : Nat
  response : Option (CStr × CStr)
  paused : Bool
  deriving DecidableEq, Repr

/-- A message as libsoup hands it to a request handler: no status, no response,
processing not paused. -/
def message_on_entry : message_state :=
  { status_code := SOUP_STATUS_NONE, response := none, paused := false }

/-- Effect of one call on the message `msg`. `soup_message_set_response` takes
`resp_length` bytes of `resp_body`. -/
def apply_call (msg : Nat) (m : message_state) : Call → message_state
  | Call.soup_message_set_status target status_code =>
    if target = msg then { m with status_code := status_code } else m
  | Call.soup_message_set_response target content_type _ resp_body resp_length =>
    if target = msg then { m with response := some (content_type, resp_body.take resp_length) }
    else m
  | Call.soup_server_pause_message _ target =>
    if target = msg then { m with paused := true } else m
  | Call.soup_server_unpause_message _ target =>
    if target = msg then { m with paused := false } else m
  | Call.command_run _ _ _ _ _ => m

/-- State of the message `msg` after a sequence of calls. -/
def message_after (msg : Nat) (m : message_state) (calls : List Call) : message_state :=
  calls.foldl (apply_call msg) m

/-- Whether a call is a call of `command_run`. -/
def is_command_run : Call → Bool
  | Call.command_run _ _ _ _ _ => true
  | _ => false

/-- Whether a call sets a status on some message. -/
def is_set_status : Call → Bool
  | Call.soup_message_set_status _ _ => true
  | _ => false

/-- Whether a call pauses the processing of some message. -/
def is_pause : Call → Bool
  | Call.soup_server_pause_message _ _ => true
  | _ => false

/-! ## The lookup rule in the words of the specification -/

/-- The declared argument count of a descriptor: the number of leading
non-`CA_NONE` kinds of its `args`. -/
def declared_arg_count (desc : command_descriptor) : Nat :=
  (desc.args.toList.takeWhile (fun a => a ≠ command_arg.CA_NONE)).length

/-- A registry entry satisfies both conditions of the lookup for a segment list:
its name is exactly `segments[0]` and its declared argument count is
`len(segments) - 1`. -/
def entry_matches (d : command_full_descriptor) (segments : List CStr) : Prop :=
  segments.head? = some d.name ∧ declared_arg_count d.desc = segments.length - 1

instance (d : command_full_descriptor) (segments : List CStr) :
    Decidable (entry_matches d segments) := by
  unfold entry_matches; infer_instance

/-- The segment list of a request target: the target split on `/`, every piece
percent-decoded. -/
def decoded_segments (target : CStr) : List CStr :=
  (g_strsplit target '/').map soup_uri_decode

/-- In the registry, (name, arity) pairs are unique: no two entries agree in both
their name and their declared argument count. -/
def unique_name_arity (table : List command_full_descriptor) : Prop :=
  table.Pairwise (fun d e =>
    ¬ (d.name = e.name ∧ declared_arg_count d.desc = declared_arg_count e.desc))

instance (table : List command_full_descriptor) : Decidable (unique_name_arity table) := by
  unfold unique_name_arity; infer_instance

/-- Whether a call sets a response body on some message. -/
def is_set_response : Call → Bool
  | Call.soup_message_set_response _ _ _ _ _ => true
  | _ => false

/-! ## `command_run`, whose body is not part of the sources at hand -/

/-- Error taxonomy of the specification (section 7). -/
inductive ErrorKind where
  | NotFound
  | BadRequest
  | Forbidden
  | NotImplemented
  | OperationFailure
  deriving DecidableEq, Repr

/-- A resolved argument: an integer, a string or a URI-like reference (a handle of
the backend). -/
inductive resolved_arg where
  | integer (value : Nat)
  | string (value : CStr)
  | reference (link : Nat)
  deriving DecidableEq, Repr

/-- Value of a string of decimal digits. -/
def decimal_value (s : CStr) : Nat :=
  s.foldl (fun n c => 10 * n + (c.toNat - 48)) 0

/-- Modelled from the spec: the Argument Resolver on one raw segment (section 4.2);
the body of `command_run` is not part of the sources at hand. An integer "must
parse as a base-10 (non-negative) integer", a string is "accepted verbatim", a
URI-like reference is parsed by the backend collaborator (`parse_uri`), and a
segment offered for a `none` slot is beyond the declared arity. -/
def resolve_arg (parse_uri : CStr → Option Nat) : command_arg → CStr → Option resolved_arg
  | command_arg.CA_NONE, _ => none
  | command_arg.CA_INT, s =>
    if s ≠ [] ∧ s.all Char.isDigit = true then some (resolved_arg.integer (decimal_value s))
    else none
  | command_arg.CA_STR, s => some (resolved_arg.string s)
  | command_arg.CA_URI, s => (parse_uri s).map resolved_arg.reference

/-- Modelled from the spec: `resolve(rawSegments, descriptor)` (section 4.2), kind
by kind in order; it "either succeeds for all segments of a matched descriptor or
the whole dispatch fails". The body of `command_run` is not part of the sources
at hand. -/
def resolve_args (parse_uri : CStr → Option Nat) :
    List command_arg → List CStr → Option (List resolved_arg)
  | _, [] => some []
  | [], _ :: _ => none
  | kind :: kinds, s :: rest =>
    match resolve_arg parse_uri kind s, resolve_args parse_uri kinds rest with
    | some a, some resolved => some (a :: resolved)
    | _, _ => none

/-- The invocation of a bound operation: the operation handle, the resolved
arguments and the completion context (callback and its data). -/
structure operation_call where
  func : Nat
  arguments : List resolved_arg
  finalize : command_finalize_func
  finalize_data : Nat
  deriving DecidableEq, Repr

/-- Modelled from the spec: `command_run`, of which the sources at hand hold only a
declaration (section 4.3, step 4): "resolve remaining segments via the Argument
Resolver; on resolution failure, reject as bad request. On success, invoke the
bound operation with the resolved arguments and a handle to a Completion
Context." The result is the invocation made, or the rejection. -/
def command_run (parse_uri : CStr → Option Nat) (finalize : command_finalize_func)
    (finalize_data : Nat) (desc : command_descriptor) (_argc : Int) (argv : List CStr) :
    Except ErrorKind operation_call :=
  match resolve_args parse_uri desc.args.toList argv.tail with
  | none => .error ErrorKind.BadRequest
  | some resolved =>
    .ok { func := desc.func, arguments := resolved, finalize := finalize,
          finalize_data := finalize_data }

/-! ## Registries and requests of the scenarios -/

/-- The `args` array of a descriptor from its two entries. -/
def args_of (a0 a1 : command_arg) : Mathlib.Vector command_arg MAX_CMD_ARGS :=
  ⟨[a0, a1], rfl⟩

/-- A registry with `play` at arity 0 and at arity 1 (scenario 1 of the
specification), `seek` with an integer argument (scenario 3), a no-op entry
`idle` (scenario 5) and an entry `bye` of a further execution kind. -/
def scenario_registry : List command_full_descriptor :=
  [ { name := "play".toList, type := command_type.CT_FUNC,
      desc := { func := 101, args := args_of command_arg.CA_NONE command_arg.CA_NONE } },
    { name := "play".toList, type := command_type.CT_FUNC,
      desc := { func := 102, args := args_of command_arg.CA_URI command_arg.CA_NONE } },
    { name := "seek".toList, type := command_type.CT_FUNC,
      desc := { func := 103, args := args_of command_arg.CA_INT command_arg.CA_NONE } },
    { name := "idle".toList, type := command_type.CT_IDLE,
      desc := { func := 104, args := args_of command_arg.CA_NONE command_arg.CA_NONE } },
    { name := "bye".toList, type := command_type.CT_OTHER 1,
      desc := { func := 105, args := args_of command_arg.CA_NONE command_arg.CA_NONE } } ]

/-- A backend that accepts every URI-like reference. -/
def any_uri (_s : CStr) : Option Nat := some 0


/-! ## Auxiliary facts -/

theorem strcmp_eq_zero_iff (s1 s2 : CStr) : strcmp s1 s2 = 0 ↔ s1 = s2 := by
  induction s1 generalizing s2 with
  | nil => cases s2 <;> simp [strcmp]
  | cons a s1 ih =>
    cases s2 with
    | nil => simp [strcmp]
    | cons b s2 =>
      by_cases hab : a = b
      · simp [strcmp, hab, ih]
      · by_cases hlt : a.toNat < b.toNat <;> simp [strcmp, hab, hlt]

theorem nb_args_eq_declared (desc : command_descriptor) :
    nb_args desc = declared_arg_count desc := by
  obtain ⟨func, ⟨l, hl⟩⟩ := desc
  match l, hl with
  | [a, b], _ => cases a <;> cases b <;> rfl

theorem nb_args_le (desc : command_descriptor) : nb_args desc ≤ MAX_CMD_ARGS := by
  rw [nb_args_eq_declared, declared_arg_count]
  calc (desc.args.toList.takeWhile (fun a => a ≠ command_arg.CA_NONE)).length
      ≤ desc.args.toList.length := (List.takeWhile_sublist _).length_le
    _ = MAX_CMD_ARGS := desc.args.toList_length

theorem count_args_loop_fuel (args : Mathlib.Vector command_arg MAX_CMD_ARGS)
    (fuel nb : Nat) (h : MAX_CMD_ARGS - nb ≤ fuel) :
    count_args_loop args fuel nb = count_args_loop args (MAX_CMD_ARGS - nb) nb := by
  induction fuel generalizing nb with
  | zero =>
    have : MAX_CMD_ARGS - nb = 0 := by omega
    rw [this]
  | succ fuel ih =>
    by_cases hnb : nb < MAX_CMD_ARGS
    · obtain ⟨k, hk⟩ : ∃ k, MAX_CMD_ARGS - nb = k + 1 := ⟨MAX_CMD_ARGS - nb - 1, by omega⟩
      rw [hk]
      by_cases ha : args.get ⟨nb, hnb⟩ = command_arg.CA_NONE
      · simp [count_args_loop, hnb, ha]
      · simp only [count_args_loop, hnb, ha, dite_true, ne_eq, not_false_eq_true, ite_true]
        rw [ih (nb + 1) (by omega)]
        have : MAX_CMD_ARGS - (nb + 1) = k := by omega
        rw [this]
    · have : MAX_CMD_ARGS - nb = 0 := by omega
      rw [this]
      simp [count_args_loop, hnb]

theorem entry_selected_iff (d : command_full_descriptor) (cmd0 : CStr) (cmd_len : Nat)
    (hpos : 0 < cmd_len) (hlt : cmd_len < GUINT_RANGE) :
    entry_selected d cmd0 cmd_len = true ↔
      d.name = cmd0 ∧ declared_arg_count d.desc = cmd_len - 1 := by
  have hle := nb_args_le d.desc
  rw [nb_args_eq_declared] at hle
  simp only [entry_selected, Bool.and_eq_true, decide_eq_true_eq, strcmp_eq_zero_iff,
    nb_args_eq_declared]
  simp only [GUINT_RANGE, MAX_CMD_ARGS] at *
  constructor
  · rintro ⟨h1, h2⟩
    exact ⟨h1, by omega⟩
  · rintro ⟨h1, h2⟩
    exact ⟨h1, by omega⟩

theorem lookup_loop_eq_some_iff (cmd0 : CStr) (cmd_len : Nat)
    (table : List command_full_descriptor) (i k : Nat) (d : command_full_descriptor) :
    lookup_loop cmd0 cmd_len i table = some (k, d) ↔
      ∃ j, k = i + j ∧ table[j]? = some d ∧ entry_selected d cmd0 cmd_len = true ∧
        ∀ (j2 : Nat) (e : command_full_descriptor), j2 < j → table[j2]? = some e →
          entry_selected e cmd0 cmd_len = false := by
  induction table generalizing i with
  | nil => simp [lookup_loop]
  | cons hd rest ih =>
    by_cases hsel : entry_selected hd cmd0 cmd_len = true
    · simp only [lookup_loop, hsel, if_true, Option.some.injEq, Prod.mk.injEq]
      constructor
      · rintro ⟨rfl, rfl⟩
        exact ⟨0, rfl, by simp, hsel, fun j2 e h => absurd h (Nat.not_lt_zero _)⟩
      · rintro ⟨j, hk, hj, hd_sel, hfirst⟩
        cases j with
        | zero =>
          simp only [List.getElem?_cons_zero, Option.some.injEq] at hj
          exact ⟨by omega, hj⟩
        | succ j =>
          have := hfirst 0 hd (Nat.succ_pos _) (by simp)
          rw [hsel] at this
          exact absurd this (by simp)
    · have hsel2 : entry_selected hd cmd0 cmd_len = false := by simpa using hsel
      simp only [lookup_loop, hsel2, Bool.false_eq_true, if_false]
      rw [ih (i + 1)]
      constructor
      · rintro ⟨j, hk, hj, hd_sel, hfirst⟩
        refine ⟨j + 1, by omega, by simpa using hj, hd_sel, ?_⟩
        intro j2 e hlt he
        cases j2 with
        | zero =>
          simp only [List.getElem?_cons_zero, Option.some.injEq] at he
          rw [← he]; exact hsel2
        | succ j2 =>
          exact hfirst j2 e (by omega) (by simpa using he)
      · rintro ⟨j, hk, hj, hd_sel, hfirst⟩
        cases j with
        | zero =>
          simp only [List.getElem?_cons_zero, Option.some.injEq] at hj
          rw [← hj, hsel2] at hd_sel
          exact absurd hd_sel (by simp)
        | succ j =>
          refine ⟨j, by omega, by simpa using hj, hd_sel, ?_⟩
          intro j2 e hlt he
          exact hfirst (j2 + 1) e (by omega) (by simpa using he)

theorem lookup_loop_eq_none_iff (cmd0 : CStr) (cmd_len : Nat)
    (table : List command_full_descriptor) (i : Nat) :
    lookup_loop cmd0 cmd_len i table = none ↔
      ∀ d ∈ table, entry_selected d cmd0 cmd_len = false := by
  induction table generalizing i with
  | nil => simp [lookup_loop]
  | cons hd rest ih =>
    by_cases hsel : entry_selected hd cmd0 cmd_len = true
    · simp [lookup_loop, hsel]
    · have hsel2 : entry_selected hd cmd0 cmd_len = false := by simpa using hsel
      simp [lookup_loop, hsel2, ih (i + 1)]


theorem split_pieces_length (delimiter : Char) (s : CStr) :
    (split_pieces delimiter s).length = s.count delimiter + 1 := by
  induction s with
  | nil => simp [split_pieces]
  | cons c rest ih =>
    by_cases hc : c = delimiter
    · subst hc
      simp [split_pieces, ih]
    · have hne : (c == delimiter) = false := by simpa using hc
      cases hsp : split_pieces delimiter rest with
      | nil => rw [hsp] at ih; simp at ih
      | cons piece pieces =>
        rw [hsp] at ih
        simp only [split_pieces, hc, if_false, hsp, List.length_cons, List.count_cons, hne]
        simpa using ih

theorem g_strsplit_eq_nil_iff (s : CStr) (delimiter : Char) :
    g_strsplit s delimiter = [] ↔ s = [] := by
  cases s with
  | nil => simp [g_strsplit]
  | cons c rest =>
    simp only [g_strsplit, reduceCtorEq, iff_false]
    intro h
    have := split_pieces_length delimiter (c :: rest)
    rw [h] at this
    simp at this

theorem g_strsplit_length (s : CStr) (delimiter : Char) (hs : s ≠ []) :
    (g_strsplit s delimiter).length = s.count delimiter + 1 := by
  cases s with
  | nil => exact absurd rfl hs
  | cons c rest => simpa [g_strsplit] using split_pieces_length delimiter (c :: rest)

theorem g_strsplit_length_le (s : CStr) (delimiter : Char) :
    (g_strsplit s delimiter).length ≤ s.length + 1 := by
  cases s with
  | nil => simp [g_strsplit]
  | cons c rest =>
    rw [g_strsplit_length _ _ (by simp)]
    have := List.count_le_length delimiter (c :: rest)
    omega

theorem decode_loop_all (cmd : List CStr) (n : Nat) (h : cmd.length ≤ n) :
    decode_loop n cmd = cmd.map soup_uri_decode := by
  induction cmd generalizing n with
  | nil => cases n <;> simp [decode_loop]
  | cons part rest ih =>
    cases n with
    | zero => simp at h
    | succ n =>
      simp only [decode_loop, List.map_cons]
      rw [ih n (by simpa using h)]

theorem g_strv_length_eq (str_array : List CStr) (h : str_array.length < GUINT_RANGE) :
    g_strv_length str_array = str_array.length := by
  simp [g_strv_length, Nat.mod_eq_of_lt h]

theorem lookup_command_selected (table : List command_full_descriptor) (cmd0 : CStr)
    (cmd_len i : Nat) (d : command_full_descriptor)
    (h : lookup_command table cmd0 cmd_len = some (i, d)) :
    entry_selected d cmd0 cmd_len = true := by
  obtain ⟨_, _, _, hsel, _⟩ := (lookup_loop_eq_some_iff cmd0 cmd_len table 0 i d).1 h
  exact hsel

/-- The handler on a GET request whose path holds the five characters that are
stripped and fits a `guint`: the segment count is exact and every segment is
decoded. -/
theorem web_api_handler_get (table : List command_full_descriptor) (server msg : Nat)
    (path : CStr) (heap : Heap) (h5 : 5 ≤ path.length) (hlen : path.length < GUINT_RANGE) :
    web_api_handler table server msg SOUP_METHOD_GET path heap =
      if path.drop 5 = [] then
        .ok ([Call.soup_message_set_status msg SOUP_STATUS_NOT_FOUND], heap)
      else
        match lookup_command table ((decoded_segments (path.drop 5)).headD [])
            (decoded_segments (path.drop 5)).length with
        | none => .ok ([Call.soup_message_set_status msg SOUP_STATUS_NOT_FOUND], heap)
        | some (_, cmd_desc) =>
          match cmd_desc.type with
          | command_type.CT_FUNC =>
            .ok ([Call.soup_server_pause_message server msg,
                  Call.command_run command_finalize_func.web_command_finalize (g_new0 heap)
                    cmd_desc.desc ((decoded_segments (path.drop 5)).length : Int)
                    (decoded_segments (path.drop 5))],
                 (g_new0 heap, { server := server, msg := msg }) :: heap)
          | command_type.CT_IDLE => .ok ([], heap)
          | _ => .ok ([Call.soup_message_set_status msg SOUP_STATUS_FORBIDDEN], heap)
    := by
  have hsplit_lt : (g_strsplit (path.drop 5) '/').length < GUINT_RANGE := by
    have := g_strsplit_length_le (path.drop 5) '/'
    simp only [List.length_drop] at this
    omega
  have hoff : cstr_offset path 5 = some (path.drop 5) := by simp [cstr_offset, h5]
  simp only [web_api_handler, ne_eq, not_true_eq_false, if_false, hoff,
    g_strv_length_eq _ hsplit_lt]
  by_cases hempty : path.drop 5 = []
  · have : g_strsplit (path.drop 5) '/' = [] := (g_strsplit_eq_nil_iff _ _).2 hempty
    rw [if_pos hempty]
    simp [this]
  · have hne : g_strsplit (path.drop 5) '/' ≠ [] := fun h =>
      hempty ((g_strsplit_eq_nil_iff _ _).1 h)
    have hpos : (g_strsplit (path.drop 5) '/').length ≠ 0 := by
      simpa [List.length_eq_zero] using hne
    simp only [hpos, if_false, hempty, decode_loop_all _ _ (le_refl _), decoded_segments,
      List.length_map]
    cases hlk : lookup_command table
        ((List.map soup_uri_decode (g_strsplit (path.drop 5) '/')).headD [])
        (g_strsplit (path.drop 5) '/').length with
    | none => rfl
    | some r =>
      obtain ⟨i, cmd_desc⟩ := r
      simp only
      cases htype : cmd_desc.type with
      | CT_FUNC =>
        simp only
        have hsel := lookup_command_selected _ _ _ _ _ hlk
        rw [entry_selected_iff _ _ _ (Nat.pos_of_ne_zero hpos) hsplit_lt] at hsel
        have hle := (nb_args_eq_declared cmd_desc.desc) ▸ nb_args_le cmd_desc.desc
        have hlt31 : (g_strsplit (path.drop 5) '/').length < 2147483648 := by
          simp only [MAX_CMD_ARGS] at hle
          omega
        simp [guint_to_int, hlt31]
      | CT_IDLE => rfl
      | CT_OTHER v => rfl


theorem entry_selected_iff_matches (d : command_full_descriptor) (segments : List CStr)
    (hne : segments ≠ []) (hlen : segments.length < GUINT_RANGE) :
    entry_selected d (segments.headD []) segments.length = true ↔ entry_matches d segments := by
  cases segments with
  | nil => exact absurd rfl hne
  | cons s rest =>
    rw [entry_selected_iff _ _ _ (by simp) hlen]
    simp only [entry_matches, List.headD_cons, List.head?_cons, Option.some.injEq]
    constructor
    · rintro ⟨h1, h2⟩
      exact ⟨h1.symm, h2⟩
    · rintro ⟨h1, h2⟩
      exact ⟨h1.symm, h2⟩

theorem entry_selected_zero (d : command_full_descriptor) (cmd0 : CStr) :
    entry_selected d cmd0 0 = false := by
  have hle := nb_args_le d.desc
  simp only [MAX_CMD_ARGS] at hle
  have : ¬ (nb_args d.desc % 4294967296 = 4294967295) := by omega
  simp [entry_selected, GUINT_RANGE, this]

theorem lookup_command_zero (table : List command_full_descriptor) (cmd0 : CStr) :
    lookup_command table cmd0 0 = none := by
  rw [lookup_command, lookup_loop_eq_none_iff]
  intro d _
  exact entry_selected_zero d cmd0

theorem decoded_segments_length (target : CStr) :
    (decoded_segments target).length = (g_strsplit target '/').length := by
  simp [decoded_segments]

theorem decoded_segments_eq_nil_iff (target : CStr) :
    decoded_segments target = [] ↔ target = [] := by
  simp [decoded_segments, g_strsplit_eq_nil_iff]

theorem decoded_segments_length_lt (path : CStr) (hlen : path.length < GUINT_RANGE)
    (h5 : 5 ≤ path.length) : (decoded_segments (path.drop 5)).length < GUINT_RANGE := by
  rw [decoded_segments_length]
  have := g_strsplit_length_le (path.drop 5) '/'
  simp only [List.length_drop] at this
  omega

theorem g_new0_fresh (heap : Heap) : heap.lookup (g_new0 heap) = none := by
  have hbound : ∀ (l : List Nat) (k : Nat), k ∈ l → k ≤ l.foldr max 0 := by
    intro l
    induction l with
    | nil => intro k hk; simp at hk
    | cons a l ih =>
      intro k hk
      simp only [List.foldr_cons]
      rcases List.mem_cons.1 hk with h | h
      · subst h; exact le_max_left _ _
      · exact le_trans (ih k h) (le_max_right _ _)
  rw [List.lookup_eq_none_iff]
  intro p hp
  have := hbound (heap.map Prod.fst) p.1 (List.mem_map_of_mem _ hp)
  simp only [g_new0, bne_iff_ne, ne_eq]
  omega

theorem g_free_lookup (heap : Heap) (p : Nat) : (g_free heap p).lookup p = none := by
  rw [List.lookup_eq_none_iff]
  intro cell hcell
  simp only [g_free, List.mem_filter, decide_eq_true_eq] at hcell
  simp only [bne_iff_ne, ne_eq]
  exact fun h => hcell.2 h.symm

/-- The handler on a GET request whose lookup finds an entry: what it does is
decided by the execution kind of that entry alone. -/
theorem web_api_handler_hit (table : List command_full_descriptor) (server msg : Nat)
    (path : CStr) (heap : Heap) (h5 : 5 ≤ path.length) (hlen : path.length < GUINT_RANGE)
    (i : Nat) (d : command_full_descriptor)
    (hlk : lookup_command table ((decoded_segments (path.drop 5)).headD [])
      (decoded_segments (path.drop 5)).length = some (i, d)) :
    web_api_handler table server msg SOUP_METHOD_GET path heap =
      match d.type with
      | command_type.CT_FUNC =>
        .ok ([Call.soup_server_pause_message server msg,
              Call.command_run command_finalize_func.web_command_finalize (g_new0 heap)
                d.desc ((decoded_segments (path.drop 5)).length : Int)
                (decoded_segments (path.drop 5))],
             (g_new0 heap, { server := server, msg := msg }) :: heap)
      | command_type.CT_IDLE => .ok ([], heap)
      | _ => .ok ([Call.soup_message_set_status msg SOUP_STATUS_FORBIDDEN], heap) := by
  have hne : path.drop 5 ≠ [] := by
    intro h
    rw [h] at hlk
    have : decoded_segments [] = [] := rfl
    rw [this] at hlk
    simp [lookup_command_zero] at hlk
  rw [web_api_handler_get table server msg path heap h5 hlen, if_neg hne, hlk]

/-! ## The claims -/

/-- C1: for every table and every non-empty decoded segment list (whose length
fits the `guint` the handler counts it in), the lookup of `web_api_handler`
selects entry `i` exactly when entry `i` has the name `segments[0]` and
`len(segments)-1` declared arguments and no earlier entry of the table has both;
it selects no entry exactly when no entry of the table has both. -/
theorem C1_lookup_first_match (table : List command_full_descriptor)
    (segments : List CStr) (hne : segments ≠ []) (hlen : segments.length < GUINT_RANGE) :
    (∀ (i : Nat) (d : command_full_descriptor),
      lookup_command table (segments.headD []) (g_strv_length segments) = some (i, d) ↔
        (table[i]? = some d ∧ entry_matches d segments ∧
          ∀ (j : Nat) (e : command_full_descriptor), j < i → table[j]? = some e →
            ¬ entry_matches e segments)) ∧
    (lookup_command table (segments.headD []) (g_strv_length segments) = none ↔
      ∀ d ∈ table, ¬ entry_matches d segments) := by
  rw [g_strv_length_eq _ hlen]
  constructor
  · intro i d
    rw [lookup_command, lookup_loop_eq_some_iff]
    constructor
    · rintro ⟨j, hj, hget, hsel, hfirst⟩
      have hij : i = j := by omega
      subst hij
      refine ⟨hget, (entry_selected_iff_matches d segments hne hlen).1 hsel, ?_⟩
      intro j2 e hlt he hm
      have := hfirst j2 e hlt he
      rw [(entry_selected_iff_matches e segments hne hlen).2 hm] at this
      exact absurd this (by simp)
    · rintro ⟨hget, hm, hfirst⟩
      refine ⟨i, by omega, hget, (entry_selected_iff_matches d segments hne hlen).2 hm, ?_⟩
      intro j2 e hlt he
      have hnm := hfirst j2 e hlt he
      rw [← entry_selected_iff_matches e segments hne hlen] at hnm
      simpa using hnm
  · rw [lookup_command, lookup_loop_eq_none_iff]
    constructor
    · intro h d hd hm
      have := h d hd
      rw [(entry_selected_iff_matches d segments hne hlen).2 hm] at this
      exact absurd this (by simp)
    · intro h d hd
      have hnm := h d hd
      rw [← entry_selected_iff_matches d segments hne hlen] at hnm
      simpa using hnm

/-- Witness of C1: the path `play/x` against a registry that holds `play` at
arity 0 and at arity 1. -/
theorem C1_lookup_first_match_witness :
    ["play".toList, "x".toList] ≠ [] ∧
    (["play".toList, "x".toList] : List CStr).length < GUINT_RANGE ∧
    ((∀ (i : Nat) (d : command_full_descriptor),
      lookup_command scenario_registry ((["play".toList, "x".toList] : List CStr).headD [])
          (g_strv_length ["play".toList, "x".toList]) = some (i, d) ↔
        (scenario_registry[i]? = some d ∧ entry_matches d ["play".toList, "x".toList] ∧
          ∀ (j : Nat) (e : command_full_descriptor), j < i → scenario_registry[j]? = some e →
            ¬ entry_matches e ["play".toList, "x".toList])) ∧
    (lookup_command scenario_registry ((["play".toList, "x".toList] : List CStr).headD [])
          (g_strv_length ["play".toList, "x".toList]) = none ↔
      ∀ d ∈ scenario_registry, ¬ entry_matches d ["play".toList, "x".toList])) :=
  ⟨by decide, by decide,
    C1_lookup_first_match scenario_registry ["play".toList, "x".toList] (by decide) (by decide)⟩


/-- Counterexample to C2 as stated: the registry of scenario 1 has unique
(name, arity) pairs and registers `play` with 0 arguments as entry 0, yet the
lookup of the same name with the other arity 1 is not NotFound: it returns
entry 1, the `play` descriptor with one argument. -/
theorem C2_counterexample :
    unique_name_arity scenario_registry ∧
    scenario_registry[0]? = some
      { name := "play".toList, type := command_type.CT_FUNC,
        desc := { func := 101, args := args_of command_arg.CA_NONE command_arg.CA_NONE } } ∧
    declared_arg_count
      { func := 101, args := args_of command_arg.CA_NONE command_arg.CA_NONE } = 0 ∧
    lookup_command scenario_registry "play".toList (1 + 1) ≠ none ∧
    lookup_command scenario_registry "play".toList (1 + 1) = some (1,
      { name := "play".toList, type := command_type.CT_FUNC,
        desc := { func := 102, args := args_of command_arg.CA_URI command_arg.CA_NONE } }) := by
  decide

/-- C2, amended: in a table whose (name, arity) pairs are unique, the lookup
with the name and the declared argument count of a registered descriptor returns
that exact descriptor; the lookup with the same name and any other arity never
returns that descriptor: it returns NotFound exactly when no entry registers that
name with that other arity, and otherwise an entry that does. -/
theorem C2_lookup_registered (table : List command_full_descriptor)
    (huniq : unique_name_arity table) (i : Nat) (d : command_full_descriptor)
    (hd : table[i]? = some d) :
    lookup_command table d.name (declared_arg_count d.desc + 1) = some (i, d) ∧
    ∀ arity : Nat, arity ≠ declared_arg_count d.desc → arity + 1 < GUINT_RANGE →
      (lookup_command table d.name (arity + 1) = none ↔
        ∀ e ∈ table, ¬ (e.name = d.name ∧ declared_arg_count e.desc = arity)) ∧
      (∀ (k : Nat) (e : command_full_descriptor),
        lookup_command table d.name (arity + 1) = some (k, e) →
          k ≠ i ∧ table[k]? = some e ∧ e.name = d.name ∧ declared_arg_count e.desc = arity) := by
  have hdle : declared_arg_count d.desc ≤ 2 := by
    have := nb_args_le d.desc
    rwa [nb_args_eq_declared] at this
  have hR : declared_arg_count d.desc + 1 < GUINT_RANGE := by
    simp only [GUINT_RANGE]; omega
  constructor
  · rw [lookup_command, lookup_loop_eq_some_iff]
    refine ⟨i, by omega, hd, ?_, ?_⟩
    · rw [entry_selected_iff _ _ _ (by omega) hR]
      exact ⟨rfl, by omega⟩
    · intro j e hlt he
      by_contra hsel
      have hsel2 : entry_selected e d.name (declared_arg_count d.desc + 1) = true := by
        simpa using hsel
      rw [entry_selected_iff _ _ _ (by omega) hR] at hsel2
      obtain ⟨hj, hje⟩ := List.getElem?_eq_some_iff.1 he
      obtain ⟨hi, hid⟩ := List.getElem?_eq_some_iff.1 hd
      have := List.pairwise_iff_getElem.1 huniq j i hj hi hlt
      rw [hje, hid] at this
      exact this ⟨hsel2.1, by omega⟩
  · intro arity hne hlt
    constructor
    · rw [lookup_command, lookup_loop_eq_none_iff]
      constructor
      · intro h e he hm
        have := h e he
        rw [(entry_selected_iff e d.name (arity + 1) (by omega) hlt).2 ⟨hm.1, by omega⟩] at this
        exact absurd this (by simp)
      · intro h e he
        have hnm := h e he
        by_contra hsel
        have hsel2 : entry_selected e d.name (arity + 1) = true := by simpa using hsel
        rw [entry_selected_iff _ _ _ (by omega) hlt] at hsel2
        exact hnm ⟨hsel2.1, by omega⟩
    · intro k e hlk
      rw [lookup_command, lookup_loop_eq_some_iff] at hlk
      obtain ⟨j, hj, hget, hsel, _⟩ := hlk
      rw [entry_selected_iff _ _ _ (by omega) hlt] at hsel
      have hkj : k = j := by omega
      subst hkj
      refine ⟨?_, hget, hsel.1, by omega⟩
      intro hki
      subst hki
      rw [hd] at hget
      have hde : d = e := Option.some.inj hget
      subst hde
      omega

/-- Witness of C2 (amended): entry 1 of the scenario registry, `play` with one
argument. -/
theorem C2_lookup_registered_witness :
    unique_name_arity scenario_registry ∧
    lookup_command scenario_registry "play".toList (1 + 1) = some (1,
      { name := "play".toList, type := command_type.CT_FUNC,
        desc := { func := 102, args := args_of command_arg.CA_URI command_arg.CA_NONE } }) :=
  ⟨by decide,
    (C2_lookup_registered scenario_registry (by decide) 1
      { name := "play".toList, type := command_type.CT_FUNC,
        desc := { func := 102, args := args_of command_arg.CA_URI command_arg.CA_NONE } }
      (by decide)).1⟩


/-- C3: on a GET request (whose path holds the five stripped characters and fits
a `guint`) the handler answers with status 404 exactly when the target after the
routing part is empty or no entry of the table matches the decoded segments
(first segment as name, number of remaining segments as arity); in that case
setting the status is all it does. -/
theorem C3_not_found_iff (table : List command_full_descriptor) (server msg : Nat)
    (path : CStr) (heap : Heap) (h5 : 5 ≤ path.length) (hlen : path.length < GUINT_RANGE) :
    ∃ (calls : List Call) (heap2 : Heap),
      web_api_handler table server msg SOUP_METHOD_GET path heap = .ok (calls, heap2) ∧
      (Call.soup_message_set_status msg SOUP_STATUS_NOT_FOUND ∈ calls ↔
        (path.drop 5 = [] ∨
          ∀ d ∈ table, ¬ entry_matches d (decoded_segments (path.drop 5)))) ∧
      ((message_after msg message_on_entry calls).status_code = SOUP_STATUS_NOT_FOUND ↔
        (path.drop 5 = [] ∨
          ∀ d ∈ table, ¬ entry_matches d (decoded_segments (path.drop 5)))) ∧
      ((path.drop 5 = [] ∨ ∀ d ∈ table, ¬ entry_matches d (decoded_segments (path.drop 5))) →
        calls = [Call.soup_message_set_status msg SOUP_STATUS_NOT_FOUND] ∧ heap2 = heap) := by
  rw [web_api_handler_get table server msg path heap h5 hlen]
  by_cases hempty : path.drop 5 = []
  · refine ⟨_, _, if_pos hempty, ?_, ?_, ?_⟩ <;>
      simp [hempty, message_after, apply_call]
  · have hsegne : decoded_segments (path.drop 5) ≠ [] := fun h =>
      hempty ((decoded_segments_eq_nil_iff _).1 h)
    have hseglt := decoded_segments_length_lt path hlen h5
    have hnone : lookup_command table ((decoded_segments (path.drop 5)).headD [])
        (decoded_segments (path.drop 5)).length = none ↔
        ∀ d ∈ table, ¬ entry_matches d (decoded_segments (path.drop 5)) := by
      rw [lookup_command, lookup_loop_eq_none_iff]
      constructor
      · intro h d hd hm
        have := h d hd
        rw [(entry_selected_iff_matches d _ hsegne hseglt).2 hm] at this
        exact absurd this (by simp)
      · intro h d hd
        have hnm := h d hd
        rw [← entry_selected_iff_matches d _ hsegne hseglt] at hnm
        simpa using hnm
    rw [if_neg hempty]
    cases hlk : lookup_command table ((decoded_segments (path.drop 5)).headD [])
        (decoded_segments (path.drop 5)).length with
    | none =>
      have hall := hnone.1 hlk
      refine ⟨_, _, rfl, ?_, ?_, ?_⟩
      · exact ⟨fun _ => Or.inr hall, fun _ => List.mem_singleton.2 rfl⟩
      · simp only [message_after, List.foldl, apply_call, if_true, true_iff]
        exact Or.inr hall
      · intro _; exact ⟨rfl, rfl⟩
    | some r =>
      obtain ⟨i, d⟩ := r
      have hnot : ¬ (path.drop 5 = [] ∨
          ∀ d ∈ table, ¬ entry_matches d (decoded_segments (path.drop 5))) := by
        rintro (h | h)
        · exact hempty h
        · rw [hnone.2 h] at hlk
          exact absurd hlk (by simp)
      dsimp only
      cases htype : d.type with
      | CT_FUNC =>
        refine ⟨_, _, rfl, ?_, ?_, ?_⟩
        · exact ⟨fun h => by simp at h, fun h => absurd h hnot⟩
        · refine ⟨fun h => ?_, fun h => absurd h hnot⟩
          simp [message_after, apply_call, message_on_entry, SOUP_STATUS_NONE,
            SOUP_STATUS_NOT_FOUND] at h
        · intro h; exact absurd h hnot
      | CT_IDLE =>
        refine ⟨_, _, rfl, ?_, ?_, ?_⟩
        · exact ⟨fun h => by simp at h, fun h => absurd h hnot⟩
        · refine ⟨fun h => ?_, fun h => absurd h hnot⟩
          simp [message_after, message_on_entry, SOUP_STATUS_NONE,
            SOUP_STATUS_NOT_FOUND] at h
        · intro h; exact absurd h hnot
      | CT_OTHER v =>
        refine ⟨_, _, rfl, ?_, ?_, ?_⟩
        · refine ⟨fun h => ?_, fun h => absurd h hnot⟩
          simp [SOUP_STATUS_FORBIDDEN, SOUP_STATUS_NOT_FOUND] at h
        · refine ⟨fun h => ?_, fun h => absurd h hnot⟩
          simp [message_after, apply_call, SOUP_STATUS_FORBIDDEN,
            SOUP_STATUS_NOT_FOUND] at h
        · intro h; exact absurd h hnot

/-- Witness of C3: `unknowncmd/1/2`, with no descriptor named `unknowncmd`. -/
theorem C3_not_found_iff_witness :
    5 ≤ "/api/unknowncmd/1/2".toList.length ∧
    "/api/unknowncmd/1/2".toList.length < GUINT_RANGE ∧
    web_api_handler scenario_registry 7 9 SOUP_METHOD_GET "/api/unknowncmd/1/2".toList [] =
      .ok ([Call.soup_message_set_status 9 SOUP_STATUS_NOT_FOUND], []) ∧
    ∃ (calls : List Call) (heap2 : Heap),
      web_api_handler scenario_registry 7 9 SOUP_METHOD_GET "/api/unknowncmd/1/2".toList [] =
        .ok (calls, heap2) ∧
      (Call.soup_message_set_status 9 SOUP_STATUS_NOT_FOUND ∈ calls ↔
        (("/api/unknowncmd/1/2".toList).drop 5 = [] ∨
          ∀ d ∈ scenario_registry,
            ¬ entry_matches d (decoded_segments (("/api/unknowncmd/1/2".toList).drop 5)))) ∧
      ((message_after 9 message_on_entry calls).status_code = SOUP_STATUS_NOT_FOUND ↔
        (("/api/unknowncmd/1/2".toList).drop 5 = [] ∨
          ∀ d ∈ scenario_registry,
            ¬ entry_matches d (decoded_segments (("/api/unknowncmd/1/2".toList).drop 5)))) ∧
      ((("/api/unknowncmd/1/2".toList).drop 5 = [] ∨
          ∀ d ∈ scenario_registry,
            ¬ entry_matches d (decoded_segments (("/api/unknowncmd/1/2".toList).drop 5))) →
        calls = [Call.soup_message_set_status 9 SOUP_STATUS_NOT_FOUND] ∧ heap2 = []) :=
  ⟨by decide, by decide, by decide,
    C3_not_found_iff scenario_registry 7 9 "/api/unknowncmd/1/2".toList [] (by decide)
      (by decide)⟩


/-- Counterexample to C4 as stated: the request `seek/notanumber` matches the
runnable descriptor `seek` with one integer argument and its argument segment
does not resolve, yet the handler sets no status at all on the message, so none
of the 400 class: all it does is pause the message and call `command_run`. -/
theorem C4_counterexample :
    resolve_args any_uri (args_of command_arg.CA_INT command_arg.CA_NONE).toList
      ["notanumber".toList] = none ∧
    web_api_handler scenario_registry 7 9 SOUP_METHOD_GET "/api/seek/notanumber".toList [] =
      .ok ([Call.soup_server_pause_message 7 9,
            Call.command_run command_finalize_func.web_command_finalize 1
              { func := 103, args := args_of command_arg.CA_INT command_arg.CA_NONE } 2
              ["seek".toList, "notanumber".toList]],
           [(1, { server := 7, msg := 9 })]) ∧
    message_after 9 message_on_entry
      [Call.soup_server_pause_message 7 9,
       Call.command_run command_finalize_func.web_command_finalize 1
         { func := 103, args := args_of command_arg.CA_INT command_arg.CA_NONE } 2
         ["seek".toList, "notanumber".toList]] =
      { status_code := SOUP_STATUS_NONE, response := none, paused := true } ∧
    ¬ (400 ≤ SOUP_STATUS_NONE ∧ SOUP_STATUS_NONE < 500) := by
  decide

/-- C4, amended: for every GET request that matches a descriptor of runnable kind,
the handler does not examine the argument segments: whether or not they parse, it
sets no status (so none of the 400 class), pauses the message and hands the
decoded segments to `command_run`; when an argument segment fails to parse against
its declared kind, `command_run`, as the specification describes it, reports a
bad request and does not invoke the bound operation. -/
theorem C4_parse_failure (parse_uri : CStr → Option Nat)
    (table : List command_full_descriptor) (server msg : Nat)
    (path : CStr) (heap : Heap) (h5 : 5 ≤ path.length) (hlen : path.length < GUINT_RANGE)
    (i : Nat) (d : command_full_descriptor)
    (hlk : lookup_command table ((decoded_segments (path.drop 5)).headD [])
      (decoded_segments (path.drop 5)).length = some (i, d))
    (hkind : d.type = command_type.CT_FUNC)
    (hfail : resolve_args parse_uri d.desc.args.toList
      (decoded_segments (path.drop 5)).tail = none) :
    ∃ (calls : List Call) (heap2 : Heap),
      web_api_handler table server msg SOUP_METHOD_GET path heap = .ok (calls, heap2) ∧
      calls = [Call.soup_server_pause_message server msg,
               Call.command_run command_finalize_func.web_command_finalize (g_new0 heap)
                 d.desc ((decoded_segments (path.drop 5)).length : Int)
                 (decoded_segments (path.drop 5))] ∧
      (∀ c ∈ calls, is_set_status c = false) ∧
      (∀ m : message_state, (message_after msg m calls).status_code = m.status_code) ∧
      command_run parse_uri command_finalize_func.web_command_finalize (g_new0 heap)
        d.desc ((decoded_segments (path.drop 5)).length : Int)
        (decoded_segments (path.drop 5)) = .error ErrorKind.BadRequest := by
  rw [web_api_handler_hit table server msg path heap h5 hlen i d hlk, hkind]
  refine ⟨_, _, rfl, rfl, ?_, ?_, ?_⟩
  · intro c hc
    simp only [List.mem_cons, List.mem_singleton, List.not_mem_nil, or_false] at hc
    rcases hc with rfl | rfl <;> rfl
  · intro m
    simp [message_after, apply_call]
  · simp [command_run, hfail]

/-- Witness of C4 (amended): `seek/notanumber` against the scenario registry. -/
theorem C4_parse_failure_witness :
    ∃ (calls : List Call) (heap2 : Heap),
      web_api_handler scenario_registry 7 9 SOUP_METHOD_GET "/api/seek/notanumber".toList [] =
        .ok (calls, heap2) ∧
      calls = [Call.soup_server_pause_message 7 9,
               Call.command_run command_finalize_func.web_command_finalize (g_new0 [])
                 { func := 103, args := args_of command_arg.CA_INT command_arg.CA_NONE }
                 ((decoded_segments (("/api/seek/notanumber".toList).drop 5)).length : Int)
                 (decoded_segments (("/api/seek/notanumber".toList).drop 5))] ∧
      (∀ c ∈ calls, is_set_status c = false) ∧
      (∀ m : message_state, (message_after 9 m calls).status_code = m.status_code) ∧
      command_run any_uri command_finalize_func.web_command_finalize (g_new0 [])
        { func := 103, args := args_of command_arg.CA_INT command_arg.CA_NONE }
        ((decoded_segments (("/api/seek/notanumber".toList).drop 5)).length : Int)
        (decoded_segments (("/api/seek/notanumber".toList).drop 5)) =
          .error ErrorKind.BadRequest :=
  C4_parse_failure any_uri scenario_registry 7 9 "/api/seek/notanumber".toList []
    (by decide) (by decide) 2
    { name := "seek".toList, type := command_type.CT_FUNC,
      desc := { func := 103, args := args_of command_arg.CA_INT command_arg.CA_NONE } }
    (by decide) rfl (by decide)

/-- C5: for every request whose method is not GET, whatever the path (even one
too short to strip the routing part from), the table and the heap, the handler
sets status 501 and returns: that call is all it does. -/
theorem C5_not_implemented (table : List command_full_descriptor) (server msg : Nat)
    (method path : CStr) (heap : Heap) (hmethod : method ≠ SOUP_METHOD_GET) :
    web_api_handler table server msg method path heap =
      .ok ([Call.soup_message_set_status msg SOUP_STATUS_NOT_IMPLEMENTED], heap) ∧
    (message_after msg message_on_entry
      [Call.soup_message_set_status msg SOUP_STATUS_NOT_IMPLEMENTED]) =
      { status_code := 501, response := none, paused := false } := by
  constructor
  · simp [web_api_handler, hmethod]
  · simp [message_after, apply_call, message_on_entry, SOUP_STATUS_NOT_IMPLEMENTED]

/-- Witness of C5: a POST request on a path that names a registered command. -/
theorem C5_not_implemented_witness :
    "POST".toList ≠ SOUP_METHOD_GET ∧
    web_api_handler scenario_registry 7 9 "POST".toList "/api/play".toList [] =
      .ok ([Call.soup_message_set_status 9 SOUP_STATUS_NOT_IMPLEMENTED], []) :=
  ⟨by decide,
    (C5_not_implemented scenario_registry 7 9 "POST".toList "/api/play".toList []
      (by decide)).1⟩


/-- C6: for every GET request that matches a descriptor of kind `CT_FUNC`, the
handler makes exactly two calls, in this order: it pauses the message, then calls
`command_run` once, with `web_command_finalize` as completion callback, a context
at an address that was not live before and that holds this request's server and
message, the matched descriptor, `argc` equal to the number of segments and
`argv` equal to the decoded segments in order; it sets no status. -/
theorem C6_runs_command (table : List command_full_descriptor) (server msg : Nat)
    (path : CStr) (heap : Heap) (h5 : 5 ≤ path.length) (hlen : path.length < GUINT_RANGE)
    (i : Nat) (d : command_full_descriptor)
    (hlk : lookup_command table ((decoded_segments (path.drop 5)).headD [])
      (decoded_segments (path.drop 5)).length = some (i, d))
    (hkind : d.type = command_type.CT_FUNC) :
    ∃ (ctx : Nat) (heap2 : Heap),
      web_api_handler table server msg SOUP_METHOD_GET path heap =
        .ok ([Call.soup_server_pause_message server msg,
              Call.command_run command_finalize_func.web_command_finalize ctx d.desc
                ((g_strsplit (path.drop 5) '/').length : Int)
                ((g_strsplit (path.drop 5) '/').map soup_uri_decode)],
             heap2) ∧
      ctx ≠ 0 ∧ heap.lookup ctx = none ∧
      heap2.lookup ctx = some { server := server, msg := msg } ∧
      heap2 = (ctx, { server := server, msg := msg }) :: heap ∧
      table[i]? = some d ∧
      (message_after msg message_on_entry
        [Call.soup_server_pause_message server msg,
         Call.command_run command_finalize_func.web_command_finalize ctx d.desc
           ((g_strsplit (path.drop 5) '/').length : Int)
           ((g_strsplit (path.drop 5) '/').map soup_uri_decode)]) =
        { status_code := SOUP_STATUS_NONE, response := none, paused := true } := by
  rw [web_api_handler_hit table server msg path heap h5 hlen i d hlk, hkind]
  have hget : table[i]? = some d := by
    obtain ⟨j, hj, hget, _, _⟩ := (lookup_loop_eq_some_iff _ _ table 0 i d).1 hlk
    have : i = j := by omega
    subst this
    exact hget
  refine ⟨g_new0 heap, _, ?_, ?_, g_new0_fresh heap, ?_, rfl, hget, ?_⟩
  · simp only [decoded_segments, List.length_map]
  · simp [g_new0]
  · simp [List.lookup]
  · simp [message_after, apply_call, message_on_entry]

/-- Witness of C6: `play/spotify:track:abc123` against the scenario registry. -/
theorem C6_runs_command_witness :
    5 ≤ "/api/play/spotify:track:abc123".toList.length ∧
    web_api_handler scenario_registry 7 9 SOUP_METHOD_GET
        "/api/play/spotify:track:abc123".toList [] =
      .ok ([Call.soup_server_pause_message 7 9,
            Call.command_run command_finalize_func.web_command_finalize 1
              { func := 102, args := args_of command_arg.CA_URI command_arg.CA_NONE } 2
              ["play".toList, "spotify:track:abc123".toList]],
           [(1, { server := 7, msg := 9 })]) ∧
    ∃ (ctx : Nat) (heap2 : Heap),
      web_api_handler scenario_registry 7 9 SOUP_METHOD_GET
          "/api/play/spotify:track:abc123".toList [] =
        .ok ([Call.soup_server_pause_message 7 9,
              Call.command_run command_finalize_func.web_command_finalize ctx
                { func := 102, args := args_of command_arg.CA_URI command_arg.CA_NONE }
                ((g_strsplit (("/api/play/spotify:track:abc123".toList).drop 5) '/').length : Int)
                ((g_strsplit (("/api/play/spotify:track:abc123".toList).drop 5) '/').map
                  soup_uri_decode)],
             heap2) ∧
      ctx ≠ 0 ∧ ([] : Heap).lookup ctx = none ∧
      heap2.lookup ctx = some { server := 7, msg := 9 } ∧
      heap2 = (ctx, { server := 7, msg := 9 }) :: [] ∧
      scenario_registry[1]? = some
        { name := "play".toList, type := command_type.CT_FUNC,
          desc := { func := 102, args := args_of command_arg.CA_URI command_arg.CA_NONE } } ∧
      (message_after 9 message_on_entry
        [Call.soup_server_pause_message 7 9,
         Call.command_run command_finalize_func.web_command_finalize ctx
           { func := 102, args := args_of command_arg.CA_URI command_arg.CA_NONE }
           ((g_strsplit (("/api/play/spotify:track:abc123".toList).drop 5) '/').length : Int)
           ((g_strsplit (("/api/play/spotify:track:abc123".toList).drop 5) '/').map
             soup_uri_decode)]) =
        { status_code := SOUP_STATUS_NONE, response := none, paused := true } :=
  ⟨by decide, by decide,
    C6_runs_command scenario_registry 7 9 "/api/play/spotify:track:abc123".toList []
      (by decide) (by decide) 1
      { name := "play".toList, type := command_type.CT_FUNC,
        desc := { func := 102, args := args_of command_arg.CA_URI command_arg.CA_NONE } }
      (by decide) rfl⟩

/-- C7: for every live completion context and every result payload,
`web_command_finalize` sets the status of the context's message to 200, sets its
response to exactly the payload (full length, unchanged) with content type
`application/json`, and resumes that same message on that same server; the
context is then freed. -/
theorem C7_finalize_delivers (json_result : CStr) (ctx : Nat) (heap : Heap)
    (c : web_command_context) (hlive : heap.lookup ctx = some c) :
    web_command_finalize json_result ctx heap =
      .ok ([Call.soup_message_set_status c.msg 200,
            Call.soup_message_set_response c.msg "application/json".toList
              SoupMemoryUse.SOUP_MEMORY_COPY json_result json_result.length,
            Call.soup_server_unpause_message c.server c.msg],
           g_free heap ctx) ∧
    (∀ m : message_state,
      message_after c.msg m
        [Call.soup_message_set_status c.msg 200,
         Call.soup_message_set_response c.msg "application/json".toList
           SoupMemoryUse.SOUP_MEMORY_COPY json_result json_result.length,
         Call.soup_server_unpause_message c.server c.msg] =
        { status_code := 200, response := some ("application/json".toList, json_result),
          paused := false }) ∧
    (g_free heap ctx).lookup ctx = none := by
  refine ⟨?_, ?_, g_free_lookup heap ctx⟩
  · simp [web_command_finalize, hlive, SOUP_STATUS_OK, strlen]
  · intro m
    simp [message_after, apply_call]

/-- Witness of C7: the context of a paused request receives its result. -/
theorem C7_finalize_delivers_witness :
    ([(1, { server := 7, msg := 9 })] : Heap).lookup 1 = some { server := 7, msg := 9 } ∧
    web_command_finalize "\x7b\x7d".toList 1 [(1, { server := 7, msg := 9 })] =
      .ok ([Call.soup_message_set_status 9 200,
            Call.soup_message_set_response 9 "application/json".toList
              SoupMemoryUse.SOUP_MEMORY_COPY "\x7b\x7d".toList 2,
            Call.soup_server_unpause_message 7 9],
           g_free [(1, { server := 7, msg := 9 })] 1) :=
  ⟨by decide,
    (C7_finalize_delivers "\x7b\x7d".toList 1 [(1, { server := 7, msg := 9 })]
      { server := 7, msg := 9 } (by decide)).1⟩


/-- Counterexample to C8 as stated: after `web_command_finalize` has delivered a
result for the context at address 1 (and freed it), a second call for the same
context is not a guarded call that returns having done nothing: the function
holds no check, it reads the freed context, which is undefined behaviour. -/
theorem C8_counterexample :
    web_command_finalize "first".toList 1 [(1, { server := 7, msg := 9 })] =
      .ok ([Call.soup_message_set_status 9 200,
            Call.soup_message_set_response 9 "application/json".toList
              SoupMemoryUse.SOUP_MEMORY_COPY "first".toList 5,
            Call.soup_server_unpause_message 7 9],
           []) ∧
    web_command_finalize "second".toList 1 [] ≠ .ok ([], []) ∧
    web_command_finalize "second".toList 1 [] = .error Fault.use_of_dead_pointer := by
  decide

/-- C8, amended: every call of `web_command_finalize` on a live context delivers
exactly one completion to the context's message and frees the context; the
function itself keeps no record of a delivery and holds no guard, so a second
call for the same context is a use of freed memory (undefined behaviour) instead
of a rejected call. -/
theorem C8_single_use (first second : CStr) (ctx : Nat) (heap heap2 : Heap)
    (calls : List Call)
    (hfirst : web_command_finalize first ctx heap = .ok (calls, heap2)) :
    (calls.filter is_set_response).length = 1 ∧
    heap2.lookup ctx = none ∧
    web_command_finalize second ctx heap2 = .error Fault.use_of_dead_pointer := by
  unfold web_command_finalize at hfirst
  cases hl : heap.lookup ctx with
  | none => rw [hl] at hfirst; simp at hfirst
  | some c =>
    rw [hl] at hfirst
    simp only [Except.ok.injEq, Prod.mk.injEq] at hfirst
    obtain ⟨hcalls, hheap⟩ := hfirst
    subst hcalls
    subst hheap
    refine ⟨by simp [is_set_response], g_free_lookup heap ctx, ?_⟩
    simp [web_command_finalize, g_free_lookup]

/-- Witness of C8 (amended): the context at address 1. -/
theorem C8_single_use_witness :
    web_command_finalize "first".toList 1 [(1, { server := 7, msg := 9 })] =
      .ok ([Call.soup_message_set_status 9 200,
            Call.soup_message_set_response 9 "application/json".toList
              SoupMemoryUse.SOUP_MEMORY_COPY "first".toList 5,
            Call.soup_server_unpause_message 7 9],
           []) ∧
    ((([Call.soup_message_set_status 9 200,
        Call.soup_message_set_response 9 "application/json".toList
          SoupMemoryUse.SOUP_MEMORY_COPY "first".toList 5,
        Call.soup_server_unpause_message 7 9] : List Call).filter is_set_response).length = 1 ∧
      ([] : Heap).lookup 1 = none ∧
      web_command_finalize "second".toList 1 [] = .error Fault.use_of_dead_pointer) :=
  ⟨by decide,
    C8_single_use "first".toList "second".toList 1 [(1, { server := 7, msg := 9 })] []
      [Call.soup_message_set_status 9 200,
       Call.soup_message_set_response 9 "application/json".toList
         SoupMemoryUse.SOUP_MEMORY_COPY "first".toList 5,
       Call.soup_server_unpause_message 7 9]
      (by decide)⟩

/-- Counterexample to C9 as stated: the request `idle` matches the no-op entry of
the scenario registry, and the response status is not 200: the handler makes no
call at all, so the message keeps the status it had on entry, `SOUP_STATUS_NONE`. -/
theorem C9_counterexample :
    web_api_handler scenario_registry 7 9 SOUP_METHOD_GET "/api/idle".toList [] =
      .ok ([], []) ∧
    (message_after 9 message_on_entry []).status_code = SOUP_STATUS_NONE ∧
    (message_after 9 message_on_entry []).status_code ≠ 200 := by
  decide

/-- C9, amended: for every GET request whose matched descriptor has the kind
`CT_IDLE`, the handler makes no call at all: it sets no status (the message keeps
the status it had on entry), sets no response body, does not pause the message,
does not call `command_run` and allocates no context. -/
theorem C9_idle_does_nothing (table : List command_full_descriptor) (server msg : Nat)
    (path : CStr) (heap : Heap) (h5 : 5 ≤ path.length) (hlen : path.length < GUINT_RANGE)
    (i : Nat) (d : command_full_descriptor)
    (hlk : lookup_command table ((decoded_segments (path.drop 5)).headD [])
      (decoded_segments (path.drop 5)).length = some (i, d))
    (hkind : d.type = command_type.CT_IDLE) :
    web_api_handler table server msg SOUP_METHOD_GET path heap = .ok ([], heap) ∧
    ∀ m : message_state, message_after msg m [] = m := by
  rw [web_api_handler_hit table server msg path heap h5 hlen i d hlk, hkind]
  exact ⟨rfl, fun _ => rfl⟩

/-- Witness of C9 (amended): `idle` against the scenario registry. -/
theorem C9_idle_does_nothing_witness :
    5 ≤ "/api/idle".toList.length ∧
    (web_api_handler scenario_registry 7 9 SOUP_METHOD_GET "/api/idle".toList [] =
        .ok ([], []) ∧
      ∀ m : message_state, message_after 9 m [] = m) :=
  ⟨by decide,
    C9_idle_does_nothing scenario_registry 7 9 "/api/idle".toList [] (by decide) (by decide) 3
      { name := "idle".toList, type := command_type.CT_IDLE,
        desc := { func := 104, args := args_of command_arg.CA_NONE command_arg.CA_NONE } }
      (by decide) rfl⟩

/-- C10: for every GET request whose matched descriptor has an execution kind
other than `CT_FUNC` and `CT_IDLE`, the handler sets status 403 and does nothing
else: it neither pauses the message nor calls `command_run`. -/
theorem C10_forbidden (table : List command_full_descriptor) (server msg : Nat)
    (path : CStr) (heap : Heap) (h5 : 5 ≤ path.length) (hlen : path.length < GUINT_RANGE)
    (i : Nat) (d : command_full_descriptor)
    (hlk : lookup_command table ((decoded_segments (path.drop 5)).headD [])
      (decoded_segments (path.drop 5)).length = some (i, d))
    (hfunc : d.type ≠ command_type.CT_FUNC) (hidle : d.type ≠ command_type.CT_IDLE) :
    web_api_handler table server msg SOUP_METHOD_GET path heap =
      .ok ([Call.soup_message_set_status msg 403], heap) ∧
    message_after msg message_on_entry [Call.soup_message_set_status msg 403] =
      { status_code := 403, response := none, paused := false } := by
  rw [web_api_handler_hit table server msg path heap h5 hlen i d hlk]
  constructor
  · cases htype : d.type with
    | CT_FUNC => exact absurd htype hfunc
    | CT_IDLE => exact absurd htype hidle
    | CT_OTHER v => rfl
  · simp [message_after, apply_call, message_on_entry]

/-- Witness of C10: `bye`, an entry of a further execution kind. -/
theorem C10_forbidden_witness :
    5 ≤ "/api/bye".toList.length ∧
    web_api_handler scenario_registry 7 9 SOUP_METHOD_GET "/api/bye".toList [] =
      .ok ([Call.soup_message_set_status 9 403], []) :=
  ⟨by decide,
    (C10_forbidden scenario_registry 7 9 "/api/bye".toList [] (by decide) (by decide) 4
      { name := "bye".toList, type := command_type.CT_OTHER 1,
        desc := { func := 105, args := args_of command_arg.CA_NONE command_arg.CA_NONE } }
      (by decide) (by decide) (by decide)).1⟩


/-- C11: for every request (a GET request with a path that holds the five stripped
characters and fits a `guint`), whenever the handler sets one of the terminal
statuses 501, 404 or 403, setting it is all the handler does: the message is not
paused, no response body is set, `command_run` is not called and no context is
allocated. `command_run` is called, once, exactly when the method is GET, the
lookup finds an entry and the kind of that entry is `CT_FUNC`. -/
theorem C11_routing_errors_stay_inside (table : List command_full_descriptor)
    (server msg : Nat) (method path : CStr) (heap : Heap)
    (hpath : method = SOUP_METHOD_GET → 5 ≤ path.length ∧ path.length < GUINT_RANGE) :
    ∃ (calls : List Call) (heap2 : Heap),
      web_api_handler table server msg method path heap = .ok (calls, heap2) ∧
      (∀ status : Nat, status = 501 ∨ status = 404 ∨ status = 403 →
        Call.soup_message_set_status msg status ∈ calls →
          calls = [Call.soup_message_set_status msg status] ∧ heap2 = heap ∧
          ∀ c ∈ calls, is_pause c = false ∧ is_set_response c = false ∧
            is_command_run c = false) ∧
      ((∃ c ∈ calls, is_command_run c = true) ↔
        (method = SOUP_METHOD_GET ∧
          ∃ (i : Nat) (d : command_full_descriptor),
            lookup_command table ((decoded_segments (path.drop 5)).headD [])
              (decoded_segments (path.drop 5)).length = some (i, d) ∧
            d.type = command_type.CT_FUNC)) ∧
      (calls.filter is_command_run).length ≤ 1 := by
  have single : ∀ (s0 : Nat) (h : Heap),
      (∀ status : Nat, status = 501 ∨ status = 404 ∨ status = 403 →
        Call.soup_message_set_status msg status ∈ [Call.soup_message_set_status msg s0] →
          [Call.soup_message_set_status msg s0] = [Call.soup_message_set_status msg status] ∧
          h = h ∧
          ∀ c ∈ [Call.soup_message_set_status msg s0], is_pause c = false ∧
            is_set_response c = false ∧ is_command_run c = false) := by
    intro s0 h status _ hmem
    simp only [List.mem_singleton, Call.soup_message_set_status.injEq, true_and] at hmem
    subst hmem
    refine ⟨rfl, rfl, ?_⟩
    intro c hc
    rw [List.mem_singleton.1 hc]
    exact ⟨rfl, rfl, rfl⟩
  by_cases hm : method = SOUP_METHOD_GET
  · subst hm
    obtain ⟨h5, hlen⟩ := hpath rfl
    rw [web_api_handler_get table server msg path heap h5 hlen]
    by_cases hempty : path.drop 5 = []
    · rw [if_pos hempty]
      refine ⟨_, _, rfl, single _ heap, ?_, by simp [is_command_run]⟩
      have hz : lookup_command table ((decoded_segments ([] : CStr)).headD [])
          (decoded_segments ([] : CStr)).length = none := lookup_command_zero table _
      constructor
      · rintro ⟨c, hc, hrun⟩
        rw [List.mem_singleton.1 hc] at hrun
        simp [is_command_run] at hrun
      · rintro ⟨_, i2, d2, hd2, _⟩
        rw [hempty, hz] at hd2
        exact absurd hd2 (by simp)
    · rw [if_neg hempty]
      cases hlk : lookup_command table ((decoded_segments (path.drop 5)).headD [])
          (decoded_segments (path.drop 5)).length with
      | none =>
        refine ⟨_, _, rfl, single _ heap, ?_, by simp [is_command_run]⟩
        simp [is_command_run]
      | some r =>
        obtain ⟨i, d⟩ := r
        dsimp only
        cases htype : d.type with
        | CT_FUNC =>
          refine ⟨_, _, rfl, ?_, ?_, by simp [is_command_run]⟩
          · intro status _ hmem
            simp at hmem
          · constructor
            · intro _
              exact ⟨rfl, i, d, rfl, htype⟩
            · intro _
              exact ⟨_, List.mem_cons_of_mem _ (List.mem_singleton.2 rfl), rfl⟩
        | CT_IDLE =>
          refine ⟨_, _, rfl, ?_, ?_, by simp⟩
          · intro status _ hmem
            simp at hmem
          · constructor
            · rintro ⟨c, hc, _⟩
              simp at hc
            · rintro ⟨_, i2, d2, hd2, ht2⟩
              simp only [Option.some.injEq, Prod.mk.injEq] at hd2
              rw [← hd2.2, htype] at ht2
              exact absurd ht2 (by simp)
        | CT_OTHER v =>
          refine ⟨_, _, rfl, single _ heap, ?_, by simp [is_command_run]⟩
          constructor
          · rintro ⟨c, hc, hrun⟩
            rw [List.mem_singleton.1 hc] at hrun
            simp [is_command_run] at hrun
          · rintro ⟨_, i2, d2, hd2, ht2⟩
            simp only [Option.some.injEq, Prod.mk.injEq] at hd2
            rw [← hd2.2, htype] at ht2
            exact absurd ht2 (by simp)
  · refine ⟨[Call.soup_message_set_status msg SOUP_STATUS_NOT_IMPLEMENTED], heap, ?_,
      single _ heap, ?_, by simp [is_command_run]⟩
    · simp [web_api_handler, hm]
    · simp [is_command_run, hm]


/-- Witness of C11: a request for `bye`, an entry that may not be run this way. -/
theorem C11_routing_errors_stay_inside_witness :
    (SOUP_METHOD_GET = SOUP_METHOD_GET →
      5 ≤ "/api/bye".toList.length ∧ "/api/bye".toList.length < GUINT_RANGE) ∧
    web_api_handler scenario_registry 7 9 SOUP_METHOD_GET "/api/bye".toList [] =
      .ok ([Call.soup_message_set_status 9 403], []) ∧
    ∃ (calls : List Call) (heap2 : Heap),
      web_api_handler scenario_registry 7 9 SOUP_METHOD_GET "/api/bye".toList [] =
        .ok (calls, heap2) ∧
      (calls.filter is_command_run).length ≤ 1 :=
  ⟨fun _ => ⟨by decide, by decide⟩, by decide,
    let ⟨calls, heap2, h, _, _, hone⟩ :=
      C11_routing_errors_stay_inside scenario_registry 7 9 SOUP_METHOD_GET "/api/bye".toList []
        (fun _ => ⟨by decide, by decide⟩)
    ⟨calls, heap2, h, hone⟩⟩

theorem split_pieces_ne_nil (delimiter : Char) (s : CStr) :
    split_pieces delimiter s ≠ [] := by
  intro h
  have := split_pieces_length delimiter s
  rw [h] at this
  simp at this

theorem split_pieces_intercalate (delimiter : Char) (s : CStr) :
    [delimiter].intercalate (split_pieces delimiter s) = s := by
  induction s with
  | nil => simp [split_pieces, List.intercalate]
  | cons c rest ih =>
    by_cases hc : c = delimiter
    · subst hc
      cases hsp : split_pieces c rest with
      | nil => exact absurd hsp (split_pieces_ne_nil _ _)
      | cons piece pieces =>
        rw [hsp] at ih
        simp only [split_pieces, if_true, hsp]
        rw [← ih]
        simp [List.intercalate, List.intersperse]
    · cases hsp : split_pieces delimiter rest with
      | nil => exact absurd hsp (split_pieces_ne_nil _ _)
      | cons piece pieces =>
        rw [hsp] at ih
        simp only [split_pieces, hc, if_false, hsp]
        rw [← ih]
        cases pieces <;> simp [List.intercalate, List.intersperse]

theorem split_pieces_no_delimiter (delimiter : Char) (s : CStr) :
    ∀ piece ∈ split_pieces delimiter s, delimiter ∉ piece := by
  induction s with
  | nil => simp [split_pieces]
  | cons c rest ih =>
    by_cases hc : c = delimiter
    · subst hc
      intro piece hp
      simp only [split_pieces, if_true, List.mem_cons] at hp
      rcases hp with rfl | hp
      · simp
      · exact ih piece hp
    · cases hsp : split_pieces delimiter rest with
      | nil => exact absurd hsp (split_pieces_ne_nil _ _)
      | cons p ps =>
        rw [hsp] at ih
        intro piece hpiece
        simp only [split_pieces, hc, if_false, hsp, List.mem_cons] at hpiece
        rcases hpiece with rfl | hpiece
        · intro hmem
          rcases List.mem_cons.1 hmem with h | h
          · exact hc h.symm
          · exact ih p (List.mem_cons_self _ _) h
        · exact ih piece (List.mem_cons_of_mem _ hpiece)


/-- C12: for every GET request with a non-empty target, the segment list used for
the lookup and handed to `command_run` is the target split on `/` with every
piece decoded by one call of `soup_uri_decode`, in the same order and of the same
length. The pieces are cut at the raw `/` characters only (joined by `/` they
give the target back, and none holds a `/`), so an encoded slash makes no new
segment, and a piece is decoded once: `%2541` becomes `%41`. -/
theorem C12_split_then_decode (table : List command_full_descriptor) (server msg : Nat)
    (path : CStr) (heap : Heap) (h5 : 5 ≤ path.length) (hlen : path.length < GUINT_RANGE)
    (hne : path.drop 5 ≠ []) :
    web_api_handler table server msg SOUP_METHOD_GET path heap =
      (match lookup_command table
          (((g_strsplit (path.drop 5) '/').map soup_uri_decode).headD [])
          ((g_strsplit (path.drop 5) '/').map soup_uri_decode).length with
        | none => .ok ([Call.soup_message_set_status msg SOUP_STATUS_NOT_FOUND], heap)
        | some (_, cmd_desc) =>
          match cmd_desc.type with
          | command_type.CT_FUNC =>
            .ok ([Call.soup_server_pause_message server msg,
                  Call.command_run command_finalize_func.web_command_finalize (g_new0 heap)
                    cmd_desc.desc (((g_strsplit (path.drop 5) '/').map soup_uri_decode).length : Int)
                    ((g_strsplit (path.drop 5) '/').map soup_uri_decode)],
                 (g_new0 heap, { server := server, msg := msg }) :: heap)
          | command_type.CT_IDLE => .ok ([], heap)
          | _ => .ok ([Call.soup_message_set_status msg SOUP_STATUS_FORBIDDEN], heap)) ∧
    ((g_strsplit (path.drop 5) '/').map soup_uri_decode).length =
      (g_strsplit (path.drop 5) '/').length ∧
    (∀ k : Nat, ((g_strsplit (path.drop 5) '/').map soup_uri_decode)[k]? =
      ((g_strsplit (path.drop 5) '/')[k]?).map soup_uri_decode) ∧
    ['/'].intercalate (g_strsplit (path.drop 5) '/') = path.drop 5 ∧
    (∀ piece ∈ g_strsplit (path.drop 5) '/', '/' ∉ piece) ∧
    (g_strsplit "a%2Fb/c".toList '/').map soup_uri_decode = ["a/b".toList, "c".toList] ∧
    soup_uri_decode "%2541".toList = "%41".toList ∧
    soup_uri_decode "%2541".toList ≠ "A".toList := by
  have hsplit : g_strsplit (path.drop 5) '/' = split_pieces '/' (path.drop 5) := by
    cases hd : path.drop 5 with
    | nil => exact absurd hd hne
    | cons c rest => rfl
  refine ⟨?_, by simp, ?_, ?_, ?_, by decide, by decide, by decide⟩
  · rw [web_api_handler_get table server msg path heap h5 hlen, if_neg hne]
    rfl
  · intro k
    simp
  · rw [hsplit]
    exact split_pieces_intercalate '/' _
  · rw [hsplit]
    exact split_pieces_no_delimiter '/' _

/-- Witness of C12: a target with an encoded slash and a doubly encoded `A`. -/
theorem C12_split_then_decode_witness :
    5 ≤ "/api/play/a%2Fb%2541".toList.length ∧
    ("/api/play/a%2Fb%2541".toList).drop 5 ≠ [] ∧
    web_api_handler scenario_registry 7 9 SOUP_METHOD_GET "/api/play/a%2Fb%2541".toList [] =
      .ok ([Call.soup_server_pause_message 7 9,
            Call.command_run command_finalize_func.web_command_finalize 1
              { func := 102, args := args_of command_arg.CA_URI command_arg.CA_NONE } 2
              ["play".toList, "a/b%41".toList]],
           [(1, { server := 7, msg := 9 })]) ∧
    ['/'].intercalate (g_strsplit (("/api/play/a%2Fb%2541".toList).drop 5) '/') =
      ("/api/play/a%2Fb%2541".toList).drop 5 :=
  ⟨by decide, by decide, by decide,
    (C12_split_then_decode scenario_registry 7 9 "/api/play/a%2Fb%2541".toList []
      (by decide) (by decide) (by decide)).2.2.2.1⟩

/-- C13: for every GET request whose target after the five stripped characters is
the empty string, and for every registry, the handler sets status 404 and does
nothing else: no call of `command_run`, no pause; the result does not depend on
the registry, which is not consulted. -/
theorem C13_empty_target (table : List command_full_descriptor) (server msg : Nat)
    (path : CStr) (heap : Heap) (h5 : 5 ≤ path.length) (hempty : path.drop 5 = []) :
    web_api_handler table server msg SOUP_METHOD_GET path heap =
      .ok ([Call.soup_message_set_status msg 404], heap) ∧
    web_api_handler table server msg SOUP_METHOD_GET path heap =
      web_api_handler [] server msg SOUP_METHOD_GET path heap ∧
    (message_after msg message_on_entry [Call.soup_message_set_status msg 404]) =
      { status_code := 404, response := none, paused := false } := by
  have hoff : cstr_offset path 5 = some [] := by simp [cstr_offset, h5, hempty]
  have h : ∀ t : List command_full_descriptor,
      web_api_handler t server msg SOUP_METHOD_GET path heap =
        .ok ([Call.soup_message_set_status msg 404], heap) := by
    intro t
    simp [web_api_handler, hoff, g_strsplit, g_strv_length, SOUP_STATUS_NOT_FOUND]
  refine ⟨h table, ?_, ?_⟩
  · rw [h table, h []]
  · simp [message_after, apply_call, message_on_entry]

/-- Witness of C13: the path `/api/`. -/
theorem C13_empty_target_witness :
    5 ≤ "/api/".toList.length ∧ ("/api/".toList).drop 5 = [] ∧
    web_api_handler scenario_registry 7 9 SOUP_METHOD_GET "/api/".toList [] =
      .ok ([Call.soup_message_set_status 9 404], []) :=
  ⟨by decide, by decide,
    (C13_empty_target scenario_registry 7 9 "/api/".toList [] (by decide) (by decide)).1⟩

/-- C14, at the failing input: a GET request for the path `/api`, which the handler
registered on `/api` receives, has four characters; `path+5` then points past the
terminating NUL and splitting reads outside the path string, whatever the
registry. With a fifth character of any kind the target is the rest of the path
from offset 5, so `/apiXplay` is served as `play`. -/
theorem C14_bare_api_path_reads_out_of_bounds (table : List command_full_descriptor)
    (server msg : Nat) (heap : Heap) :
    "/api".toList.length = 4 ∧
    cstr_offset "/api".toList 5 = none ∧
    web_api_handler table server msg SOUP_METHOD_GET "/api".toList heap =
      .error Fault.read_out_of_bounds ∧
    cstr_offset "/api/play".toList 5 = some "play".toList ∧
    cstr_offset "/apiXplay".toList 5 = some "play".toList := by
  refine ⟨by decide, by decide, ?_, by decide, by decide⟩
  have hoff : cstr_offset "/api".toList 5 = none := by decide
  simp only [web_api_handler, ne_eq, not_true_eq_false, if_false]
  rw [hoff]


/-- C15: the arity the lookup computes for a descriptor is the length of its
longest run of leading non-`CA_NONE` argument kinds, whatever fuel beyond
`MAX_CMD_ARGS` the loop is given, and is at most `MAX_CMD_ARGS = 2`; so for every
registry and every GET request with more than 3 segments (more than 2 argument
segments) the lookup finds nothing and the handler sets status 404 and does
nothing else. -/
theorem C15_arity_at_most_two (table : List command_full_descriptor) (server msg : Nat)
    (path : CStr) (heap : Heap) (h5 : 5 ≤ path.length) (hlen : path.length < GUINT_RANGE)
    (hmany : 3 < (g_strsplit (path.drop 5) '/').length) :
    (∀ desc : command_descriptor,
      nb_args desc = (desc.args.toList.takeWhile (fun a => a ≠ command_arg.CA_NONE)).length ∧
      nb_args desc ≤ MAX_CMD_ARGS ∧
      ∀ fuel : Nat, MAX_CMD_ARGS ≤ fuel → count_args_loop desc.args fuel 0 = nb_args desc) ∧
    MAX_CMD_ARGS = 2 ∧
    lookup_command table ((decoded_segments (path.drop 5)).headD [])
      (decoded_segments (path.drop 5)).length = none ∧
    web_api_handler table server msg SOUP_METHOD_GET path heap =
      .ok ([Call.soup_message_set_status msg 404], heap) := by
  have hseglen := decoded_segments_length (path.drop 5)
  have hseglt := decoded_segments_length_lt path hlen h5
  have hne : path.drop 5 ≠ [] := by
    intro h
    rw [h] at hmany
    simp [g_strsplit] at hmany
  have hnone : lookup_command table ((decoded_segments (path.drop 5)).headD [])
      (decoded_segments (path.drop 5)).length = none := by
    rw [lookup_command, lookup_loop_eq_none_iff]
    intro d _
    by_contra hsel
    have hsel2 : entry_selected d ((decoded_segments (path.drop 5)).headD [])
        (decoded_segments (path.drop 5)).length = true := by simpa using hsel
    rw [entry_selected_iff _ _ _ (by omega) hseglt] at hsel2
    have hle := nb_args_le d.desc
    rw [nb_args_eq_declared] at hle
    simp only [MAX_CMD_ARGS] at hle
    omega
  refine ⟨?_, rfl, hnone, ?_⟩
  · intro desc
    refine ⟨nb_args_eq_declared desc, nb_args_le desc, ?_⟩
    intro fuel hfuel
    rw [count_args_loop_fuel desc.args fuel 0 (by omega)]
    rfl
  · rw [web_api_handler_get table server msg path heap h5 hlen, if_neg hne, hnone]
    rfl

/-- Witness of C15: `play/a/b/c`, three argument segments. -/
theorem C15_arity_at_most_two_witness :
    3 < (g_strsplit (("/api/play/a/b/c".toList).drop 5) '/').length ∧
    web_api_handler scenario_registry 7 9 SOUP_METHOD_GET "/api/play/a/b/c".toList [] =
      .ok ([Call.soup_message_set_status 9 404], []) :=
  ⟨by decide,
    (C15_arity_at_most_two scenario_registry 7 9 "/api/play/a/b/c".toList []
      (by decide) (by decide) (by decide)).2.2.2⟩

/-- C16: for every non-empty request target (of a GET request whose path fits a
`guint`), the number of segments is one plus the number of `/` characters of the
raw target, so an entry the lookup finds has as many declared arguments as the
target has `/` characters, empty segments counted; when no entry has the first
segment as name and that many declared arguments the handler answers 404. The
target `play/` is the two segments `play` and the empty string, and is never
served by a descriptor of `play` without arguments. -/
theorem C16_arity_counts_slashes (table : List command_full_descriptor) (server msg : Nat)
    (path : CStr) (heap : Heap) (h5 : 5 ≤ path.length) (hlen : path.length < GUINT_RANGE)
    (hne : path.drop 5 ≠ []) :
    (g_strsplit (path.drop 5) '/').length = (path.drop 5).count '/' + 1 ∧
    (decoded_segments (path.drop 5)).length = (path.drop 5).count '/' + 1 ∧
    (∀ (i : Nat) (d : command_full_descriptor),
      lookup_command table ((decoded_segments (path.drop 5)).headD [])
        (decoded_segments (path.drop 5)).length = some (i, d) →
      d.name = (decoded_segments (path.drop 5)).headD [] ∧
      declared_arg_count d.desc = (path.drop 5).count '/') ∧
    ((∀ d ∈ table, ¬ (d.name = (decoded_segments (path.drop 5)).headD [] ∧
        declared_arg_count d.desc = (path.drop 5).count '/')) →
      web_api_handler table server msg SOUP_METHOD_GET path heap =
        .ok ([Call.soup_message_set_status msg 404], heap)) ∧
    decoded_segments "play/".toList = ["play".toList, []] ∧
    (∀ (i : Nat) (d : command_full_descriptor),
      lookup_command table ((decoded_segments "play/".toList).headD [])
        (decoded_segments "play/".toList).length = some (i, d) →
      declared_arg_count d.desc ≠ 0) := by
  have hcount := g_strsplit_length (path.drop 5) '/' hne
  have hseglen : (decoded_segments (path.drop 5)).length = (path.drop 5).count '/' + 1 := by
    rw [decoded_segments_length, hcount]
  have hseglt := decoded_segments_length_lt path hlen h5
  refine ⟨hcount, hseglen, ?_, ?_, by decide, ?_⟩
  · intro i d hlk
    have hsel := lookup_command_selected _ _ _ _ _ hlk
    rw [entry_selected_iff _ _ _ (by omega) hseglt] at hsel
    exact ⟨hsel.1, by omega⟩
  · intro hall
    have hnone : lookup_command table ((decoded_segments (path.drop 5)).headD [])
        (decoded_segments (path.drop 5)).length = none := by
      rw [lookup_command, lookup_loop_eq_none_iff]
      intro d hd
      by_contra hsel
      have hsel2 : entry_selected d ((decoded_segments (path.drop 5)).headD [])
          (decoded_segments (path.drop 5)).length = true := by simpa using hsel
      rw [entry_selected_iff _ _ _ (by omega) hseglt] at hsel2
      exact hall d hd ⟨hsel2.1, by omega⟩
    rw [web_api_handler_get table server msg path heap h5 hlen, if_neg hne, hnone]
    rfl
  · intro i d hlk
    have hsel := lookup_command_selected _ _ _ _ _ hlk
    have h2 : (decoded_segments "play/".toList).length = 2 := by decide
    rw [h2, entry_selected_iff _ _ _ (by omega) (by decide)] at hsel
    omega

/-- Witness of C16: `play/` is served by the one-argument `play` with an empty
argument, and is not found in a registry that holds `play` without arguments
only. -/
theorem C16_arity_counts_slashes_witness :
    ("/api/play/".toList).drop 5 ≠ [] ∧
    web_api_handler scenario_registry 7 9 SOUP_METHOD_GET "/api/play/".toList [] =
      .ok ([Call.soup_server_pause_message 7 9,
            Call.command_run command_finalize_func.web_command_finalize 1
              { func := 102, args := args_of command_arg.CA_URI command_arg.CA_NONE } 2
              ["play".toList, []]],
           [(1, { server := 7, msg := 9 })]) ∧
    web_api_handler (scenario_registry.take 1) 7 9 SOUP_METHOD_GET "/api/play/".toList [] =
      .ok ([Call.soup_message_set_status 9 404], []) ∧
    (g_strsplit (("/api/play/".toList).drop 5) '/').length =
      (("/api/play/".toList).drop 5).count '/' + 1 :=
  ⟨by decide, by decide, by decide,
    (C16_arity_counts_slashes scenario_registry 7 9 "/api/play/".toList []
      (by decide) (by decide) (by decide)).1⟩

end Spop
